import Mathlib

/-!
Verification of the worker-coordination core of this Stockfish fork.

The definitions below are a shallow embedding of the code:
  - src/src/thread.cpp        (Thread / MainThread / ThreadPool members)
  - src/unnamed/part_002      (thread.h: the Thread, MainThread and ThreadPool data model)
  - src/unnamed/part_000      (the session layer: stockfish_thread_wrapper, pipe_wrapper, main)

Machine integers of the source (Value, Depth, int64_t vote counters) are
modelled as Lean Int / Nat: all quantities involved stay far below any of the
source's integer bounds, so overflow does not arise on the modelled domain.
External collaborators (move generation, the search itself, the endgame
tables, the transposition table) are parameters or recorded events, exactly
as the spec treats them.
-/

/-- A chess move; an external collaborator's type (types.h is not part of
this repository slice), represented by an abstract identifier. -/
abbrev Move := Nat

/-- MOVE_NONE, the null move used by Thread::clear to fill counterMoves. -/
def MOVE_NONE : Move := 0

/-- Value, the centipawn/mate score type of the source, an int. -/
abbrev Value := Int

/-- VALUE_INFINITE of the source: the largest valid search score magnitude. -/
def VALUE_INFINITE : Value := 32001

/-- VALUE_NONE of the source: the out-of-band score used by
ThreadPool::get_best_thread to seed the minimum-score fold; it is strictly
above every valid score (valid scores have magnitude at most VALUE_INFINITE). -/
def VALUE_NONE : Value := 32002

/-- Modelled from the spec: the mate/tablebase-win horizon
(VALUE_TB_WIN_IN_MAX_PLY). The constant lives in types.h which is not among
the repository's files; the spec only calls it the "mate/tablebase horizon".
Its numeral is the conventional one of this Stockfish generation; no theorem
below depends on the exact numeral, only on it being a large positive score
below VALUE_INFINITE. -/
def VALUE_TB_WIN_IN_MAX_PLY : Value := 31262

/-- Modelled from the spec: the tablebase-loss horizon
(VALUE_TB_LOSS_IN_MAX_PLY), the mirror image of the win horizon. -/
def VALUE_TB_LOSS_IN_MAX_PLY : Value := -31262

/-- Modelled from the spec: a RootMove is "a candidate first move, its
current score, and its principal variation" (search.h is not among the
repository's files; thread.cpp constructs one per legal move and reads
rootMoves[0].score and rootMoves[0].pv). The candidate first move is pv[0],
as in the source's uses. -/
structure RootMove where
  score : Value
  pv : List Move
deriving Repr, DecidableEq

/-- The root move a fresh RootMove(m) carries: a one-move variation and the
minimal score, matching the source's emplace_back(m) in start_thinking. -/
def RootMove.emplace (m : Move) : RootMove :=
  { score := -VALUE_INFINITE, pv := [m] }

/-- The Thread class of thread.h (src/unnamed/part_002), flattened together
with the fields MainThread adds; isMain records the dynamic type. The
per-thread learning tables are modelled as total functions from an abstract
index, so that the fill(v) operations of Thread::clear become constant
functions. previousTimeReduction is a double in the source; the only value
the modelled code ever writes into it is the literal 1.0, represented
exactly as a rational. -/
structure Thread where
  idx : Nat
  isMain : Bool
  exit : Bool
  searching : Bool
  nodes : Nat
  tbHits : Nat
  nmpMinPly : Nat
  bestMoveChanges : Nat
  rootDepth : Nat
  completedDepth : Nat
  rootPos : Nat
  rootState : Nat
  rootMoves : List RootMove
  counterMoves : Nat → Move
  mainHistory : Nat → Int
  captureHistory : Nat → Int
  continuationHistory : Nat → Int
  callsCnt : Int
  bestPreviousScore : Value
  bestPreviousAverageScore : Value
  previousTimeReduction : Rat
  stopOnPonderhit : Bool
  ponder : Bool

/-- A thread value with every field zeroed; stands for the indeterminate
contents C++ leaves in fields no constructor initializes. Used only as the
default of headD reads whose list the theorems require non-empty. -/
def dummyThread : Thread :=
  { idx := 0, isMain := false, exit := false, searching := false,
    nodes := 0, tbHits := 0, nmpMinPly := 0, bestMoveChanges := 0,
    rootDepth := 0, completedDepth := 0, rootPos := 0, rootState := 0,
    rootMoves := [],
    counterMoves := fun _ => 0, mainHistory := fun _ => 0,
    captureHistory := fun _ => 0, continuationHistory := fun _ => 0,
    callsCnt := 0, bestPreviousScore := 0, bestPreviousAverageScore := 0,
    previousTimeReduction := 0, stopOnPonderhit := false, ponder := false }

instance : Inhabited Thread := ⟨dummyThread⟩

/-- The member initializers of class Thread (thread.h line 74): exit = false,
searching = true, set before the std::thread body starts running. -/
def Thread.mkRaw (idx : Nat) (isMain : Bool) : Thread :=
  { dummyThread with idx := idx, isMain := isMain, exit := false, searching := true }

/-- Thread::start_searching (thread.cpp lines 74-79): under the thread's
mutex set searching = true, then notify the condition variable. -/
def Thread.start_searching (t : Thread) : Thread :=
  { t with searching := true }

/-- The parking prologue of one idle_loop iteration (thread.cpp lines
107-109): under the mutex set searching = false and notify anyone waiting in
wait_for_search_finished, then block on the condition variable. -/
def Thread.idlePark (t : Thread) : Thread :=
  { t with searching := false }

/-- What the woken idle_loop does once cv.wait has returned with
searching = true (thread.cpp lines 110-117): if exit is set, return and let
the thread terminate; otherwise unlock and run the search. -/
inductive IdleAction where
  | terminate
  | runSearch
deriving Repr, DecidableEq

/-- The decision the idle loop takes at its wakeup point. -/
def Thread.idleWakeAction (t : Thread) : IdleAction :=
  if t.exit then IdleAction.terminate else IdleAction.runSearch

/-- Thread::~Thread (thread.cpp lines 46-53) after its assert(!searching):
set exit = true, then wake the parked thread through start_searching(), then
join. The state this produces is what the parked thread observes on wakeup. -/
def Thread.destructorSignal (t : Thread) : Thread :=
  Thread.start_searching { t with exit := true }

/-- Thread::wait_for_search_finished (thread.cpp lines 85-89): block on the
condition variable until searching is false. Modelled as a bounded retest
loop: each time the caller finds searching still true it blocks, and the
running thread takes its next step before the caller retests; fuel bounds
how many such blocking rounds the caller tolerates, none returning the
state unchanged when the predicate already holds. -/
def Thread.waitForSearchFinished (fuel : Nat) (step : Thread → Thread) (t : Thread) :
    Option Thread :=
  match fuel with
  | 0 => if t.searching then none else some t
  | Nat.succ n =>
      if t.searching then Thread.waitForSearchFinished n step (step t) else some t

/-- Thread::Thread (thread.cpp lines 36-40): initialize the fields, launch
idle_loop on the new thread, then wait_for_search_finished. The constructor
can only return once the spawned body has executed its first action, the
idle_loop parking prologue, because the freshly initialized thread has
searching = true; one round of blocking (during which the body parks)
therefore suffices. -/
def Thread.construct (idx : Nat) (isMain : Bool) : Option Thread :=
  Thread.waitForSearchFinished 1 Thread.idlePark (Thread.mkRaw idx isMain)

/-- The thread state Thread::Thread hands back: constructed, parked in
idle_loop, reporting not searching. -/
def Thread.mkIdle (idx : Nat) (isMain : Bool) : Thread :=
  Thread.idlePark (Thread.mkRaw idx isMain)

/-- Thread::clear (thread.cpp lines 58-69): fill counterMoves with
MOVE_NONE, mainHistory and captureHistory with 0, and every
continuationHistory slot with -71. -/
def Thread.clear (t : Thread) : Thread :=
  { t with counterMoves := fun _ => MOVE_NONE,
           mainHistory := fun _ => 0,
           captureHistory := fun _ => 0,
           continuationHistory := fun _ => (-71 : Int) }

/-- The LimitsType fields the modelled code reads: the optional searchmoves
allow-list that filters legal-move enumeration in start_thinking. -/
structure LimitsType where
  searchmoves : List Move
deriving Repr, DecidableEq

/-- The events ThreadPool::set delegates to collaborators after building the
threads (thread.cpp lines 141-147), in program order: the pool-wide clear(),
the transposition-table resize, and the thread-count-dependent search
parameter setup. -/
inductive PoolEvent where
  | clearTables
  | ttResize
  | searchInit
deriving Repr, DecidableEq

/-- The ThreadPool state of thread.h (src/unnamed/part_002 lines 151-206):
the ordered thread list (slot 0 the MainThread), the pool-wide flags, the
retained position-history handle (StateListPtr, a unique_ptr: None models
the empty handle) and the captured limits. The collaborator back-references
(options, transposition table, time manager, endgame tables) carry no state
the modelled code reads, and are left out. -/
structure ThreadPool where
  threads : List Thread
  stop : Bool
  increaseDepth : Bool
  setupStates : Option (List Nat)
  limits : LimitsType

/-- ThreadPool::clear (thread.cpp lines 154-163): clear every worker's
tables, then reset the main thread's iteration-tracking fields: callsCnt to
0, bestPreviousScore and bestPreviousAverageScore to VALUE_INFINITE,
previousTimeReduction to 1.0. The source calls main() = threads.front():
on an empty pool that dereference is undefined, so the model only touches
the front when one exists. -/
def ThreadPool.clear (p : ThreadPool) : ThreadPool :=
  let cleared := p.threads.map Thread.clear
  { p with threads :=
      match cleared with
      | [] => []
      | m :: rest =>
          { m with callsCnt := 0,
                   bestPreviousScore := VALUE_INFINITE,
                   bestPreviousAverageScore := VALUE_INFINITE,
                   previousTimeReduction := 1 } :: rest }

/-- The thread list ThreadPool::set builds when requested > 0 (thread.cpp
lines 137-140): a MainThread at slot 0, then plain Threads at slots
1..requested-1, each constructed parked in its idle loop. -/
def mkThreads (requested : Nat) : List Thread :=
  (List.range requested).map (fun i => Thread.mkIdle i (decide (i = 0)))

/-- ThreadPool::set (thread.cpp lines 125-149): wait for the main thread,
destroy every existing worker (pop_back until empty), and when requested > 0
recreate the threads, run the pool-wide clear(), then hand the
transposition-table resize and the search-parameter setup to the
collaborators. The returned event list records the collaborator calls in
program order. -/
def ThreadPool.set (p : ThreadPool) (requested : Nat) : ThreadPool × List PoolEvent :=
  let p0 : ThreadPool := { p with threads := [] }
  if requested > 0 then
    let p1 : ThreadPool := { p0 with threads := mkThreads requested }
    let p2 := p1.clear
    (p2, [PoolEvent.clearTables, PoolEvent.ttResize, PoolEvent.searchInit])
  else
    (p0, [])

/-- The writes start_thinking performs on the main thread before building
the root moves (thread.cpp lines 174-176): stopOnPonderhit = false and
ponder = ponderMode. main() is threads.front(). -/
def setMainFields (ponderMode : Bool) : List Thread → List Thread
  | [] => []
  | m :: rest => { m with stopOnPonderhit := false, ponder := ponderMode } :: rest

/-- The final main()->start_searching() of start_thinking (thread.cpp line
209): wake only the front thread. -/
def wakeMain : List Thread → List Thread
  | [] => []
  | m :: rest => Thread.start_searching m :: rest

/-- The per-worker replication loop of start_thinking (thread.cpp lines
200-207): zero the counters and depths, install the (ranked) root move
list, set the root position from the fen, and patch rootState from the back
of the retained history. -/
def Thread.resetForSearch (ranked : List RootMove) (posFen : Nat) (back : Nat)
    (t : Thread) : Thread :=
  { t with nodes := 0, tbHits := 0, nmpMinPly := 0, bestMoveChanges := 0,
           rootDepth := 0, completedDepth := 0,
           rootMoves := ranked, rootPos := posFen, rootState := back }

/-- ThreadPool::start_thinking (thread.cpp lines 169-210). External
collaborators enter as parameters: legalMoves is MoveList<LEGAL>(pos),
rank is the endgame-table rank_root_moves operation, posFen stands for
pos.fen(). Returns the new pool state, the caller's history handle after
the call (the unique_ptr is moved into the pool when non-empty, so the
caller always ends with the empty handle), and how many times
rank_root_moves was invoked during the call (the source guards the call
with !rootMoves.empty()). The leading main()->wait_for_search_finished()
barrier ensures the pool is idle; the search itself runs on the woken main
thread after this function has returned, so no search work happens here. -/
def ThreadPool.start_thinking (p : ThreadPool) (posFen : Nat)
    (legalMoves : List Move) (rank : List RootMove → List RootMove)
    (states : Option (List Nat)) (limits : LimitsType) (ponderMode : Bool) :
    ThreadPool × Option (List Nat) × Nat :=
  let p1 : ThreadPool :=
    { p with stop := false, increaseDepth := true, limits := limits,
             threads := setMainFields ponderMode p.threads }
  let rootMoves : List RootMove :=
    (legalMoves.filter (fun m =>
        decide (limits.searchmoves = []) || limits.searchmoves.contains m)).map
      RootMove.emplace
  let rankCalls : Nat := if rootMoves.isEmpty then 0 else 1
  let ranked : List RootMove := if rootMoves.isEmpty then rootMoves else rank rootMoves
  let p2 : ThreadPool :=
    { p1 with setupStates := match states with
                             | some s => some s
                             | none => p1.setupStates }
  let back : Nat := (p2.setupStates.getD []).getLastD 0
  let p3 : ThreadPool :=
    { p2 with threads := p2.threads.map (Thread.resetForSearch ranked posFen back) }
  let p4 : ThreadPool := { p3 with threads := wakeMain p3.threads }
  (p4, none, rankCalls)

/-- ThreadPool::start_searching (thread.cpp lines 251-256): wake every
worker other than the front one. -/
def ThreadPool.start_searching (p : ThreadPool) : ThreadPool :=
  { p with threads :=
      match p.threads with
      | [] => []
      | m :: rest => m :: rest.map Thread.start_searching }

/-- The first root move's score, rootMoves[0].score as get_best_thread reads
it; the theorems require rootMoves to be non-empty. -/
def firstScore (t : Thread) : Value :=
  (t.rootMoves.headD (RootMove.emplace MOVE_NONE)).score

/-- The first root move's first PV move, rootMoves[0].pv[0] as
get_best_thread reads it. -/
def firstMove (t : Thread) : Move :=
  ((t.rootMoves.headD (RootMove.emplace MOVE_NONE)).pv).headD MOVE_NONE

/-- The first root move's PV length, rootMoves[0].pv.size(). -/
def firstPvLen (t : Thread) : Nat :=
  ((t.rootMoves.headD (RootMove.emplace MOVE_NONE)).pv).length

/-- int(pv.size() > 2), the indicator scaling the tie-break product in
get_best_thread (thread.cpp lines 241-242). -/
def pvLongIndicator (t : Thread) : Int :=
  if 2 < firstPvLen t then 1 else 0

/-- The thread_value lambda of get_best_thread (thread.cpp lines 223-225):
(score - minScore + 14) * completedDepth. -/
def thread_value (minScore : Value) (t : Thread) : Int :=
  (firstScore t - minScore + 14) * (t.completedDepth : Int)

/-- The minimum-score fold of get_best_thread (thread.cpp lines 216-220):
minScore starts at VALUE_NONE and takes the min with every thread's first
root move score. -/
def minScoreFold (ts : List Thread) : Value :=
  ts.foldl (fun acc t => min acc (firstScore t)) VALUE_NONE

/-- The vote accumulation of get_best_thread (thread.cpp lines 227-228):
a map from move to int64, defaulting to 0, into which every thread adds its
thread_value at its first PV move. -/
def votesFold (minScore : Value) (ts : List Thread) : Move → Int :=
  ts.foldl
    (fun vt t => fun m =>
      if m = firstMove t then vt m + thread_value minScore t else vt m)
    (fun _ => 0)

/-- The replacement test of the selection loop (thread.cpp lines 230-243):
with the current best's score within the mate/tablebase horizon the
candidate must strictly beat it; otherwise the candidate wins on a
tablebase-win-or-better score, or on a score above the tablebase-loss
horizon together with a strictly larger vote total, or an equal vote total
and a strictly larger PV-length-scaled thread_value. -/
def betterThread (minScore : Value) (vt : Move → Int) (best t : Thread) : Bool :=
  if abs (firstScore best) ≥ VALUE_TB_WIN_IN_MAX_PLY then
    decide (firstScore t > firstScore best)
  else
    decide (firstScore t ≥ VALUE_TB_WIN_IN_MAX_PLY)
    || (decide (firstScore t > VALUE_TB_LOSS_IN_MAX_PLY)
        && (decide (vt (firstMove t) > vt (firstMove best))
            || (decide (vt (firstMove t) = vt (firstMove best))
                && decide (thread_value minScore t * pvLongIndicator t >
                           thread_value minScore best * pvLongIndicator best))))

/-- ThreadPool::get_best_thread (thread.cpp lines 212-246): seed the scan
with threads.front(), then fold the replacement test over the whole pool in
order, using the minimum-score fold and the vote table. -/
def get_best_thread (ts : List Thread) : Thread :=
  let minScore := minScoreFold ts
  let vt := votesFold minScore ts
  ts.foldl (fun best t => if betterThread minScore vt best t then t else best)
    (ts.headD dummyThread)

/-!
Session layer, src/unnamed/part_000.
-/

/-- The process-wide one-time-initialization state of
stockfish_thread_wrapper (part_000 lines 50-52): the function-static
mutex-guarded flag and, as the spec's instrumented counter, how many times
Bitboards::init has run in this process. -/
structure OneTimeInitState where
  bitboards_initialized : Bool
  initCount : Nat
deriving Repr, DecidableEq

/-- The critical section every session executes at startup (part_000 lines
81-87): under the static mutex, run Bitboards::init only when the flag is
still clear, then set the flag. The mutex serializes the sections of
concurrently started sessions, so a run of n concurrent sessions is some
sequential composition of n copies of this function. -/
def sessionInitSection (s : OneTimeInitState) : OneTimeInitState :=
  { bitboards_initialized := true,
    initCount := if s.bitboards_initialized then s.initCount else s.initCount + 1 }

/-- n sessions started concurrently in one fresh process (main, part_000
lines 207-230, spawns 10 of them): the flag starts clear, the counter at
zero, and the n serialized critical sections run one after the other. -/
def runConcurrentSessions (n : Nat) : OneTimeInitState :=
  sessionInitSection^[n] { bitboards_initialized := false, initCount := 0 }

/-- The outcomes of the fallible OS and pthread calls pipe_wrapper makes, in
program order (part_000 lines 130-170): the two pipe(2) calls, whether each
local stream attaches to its descriptor, and pthread_create. -/
structure PipeEnv where
  pipeInOk : Bool
  pipeOutOk : Bool
  fileInOpenOk : Bool
  fileOutOpenOk : Bool
  threadCreateOk : Bool
deriving Repr, DecidableEq

/-- What a pipe_wrapper call did to the process's descriptors by the time it
returned: its status, every descriptor the call had opened, and every one of
those it closed again before returning. -/
structure PipeOutcome where
  status : Int
  openedFds : List Nat
  closedFds : List Nat
deriving Repr, DecidableEq

/-- pipe_wrapper (part_000 lines 126-195), with the two pipe(2) calls
yielding the process's next free descriptors 3,4 (fd_in) and 5,6 (fd_out).
Failure paths return 1 immediately: after the second pipe fails nothing is
closed; after a stream fails to attach or pthread_create fails, only the
descriptors owned by an attached local fstream object are closed (by its
destructor when the function returns). On success the scripted session is
driven to completion, the runner thread joined, and the two locally wrapped
descriptors 4 and 5 closed; descriptors 3 and 6 were handed to the session
thread and are not pipe_wrapper's to close. -/
def pipe_wrapper (env : PipeEnv) : PipeOutcome :=
  if !env.pipeInOk then { status := 1, openedFds := [], closedFds := [] }
  else if !env.pipeOutOk then { status := 1, openedFds := [3, 4], closedFds := [] }
  else if !env.fileInOpenOk then
    { status := 1, openedFds := [3, 4, 5, 6], closedFds := [] }
  else if !env.fileOutOpenOk then
    { status := 1, openedFds := [3, 4, 5, 6], closedFds := [4] }
  else if !env.threadCreateOk then
    { status := 1, openedFds := [3, 4, 5, 6], closedFds := [4, 5] }
  else { status := 0, openedFds := [3, 4, 5, 6], closedFds := [5, 4] }

/-!
Definitions written from the spec's own words, for the refinement claims
about get_best_thread. They are compared with the code-derived definitions
above.
-/

/-- Following the spec sentence: "minScore is the minimum first-root-move
score over all workers" - the plain minimum, with no out-of-band seed. -/
def spec_minScore : List Thread → Value
  | [] => VALUE_NONE
  | t :: rest => rest.foldl (fun acc u => min acc (firstScore u)) (firstScore t)

/-- Following the spec sentence: "each worker adds value(th) to the vote
total of its first PV move" - the vote total of a move is the sum of
thread_value over the workers whose first PV move it is. -/
def spec_votes (minScore : Value) (ts : List Thread) (m : Move) : Int :=
  ((ts.filter (fun t => decide (firstMove t = m))).map (thread_value minScore)).sum

/-- Following the spec's step 5, word for word: when the current best's
absolute score is at or above the mate/tablebase-win horizon a worker
replaces it only if its score is strictly greater; otherwise a worker
replaces it only if its score is at tablebase-win level or better, or its
score is above tablebase-loss level and its first move's vote total
strictly exceeds the current best's, or the totals are equal and value(th)
multiplied by the indicator "PV longer than two moves" strictly exceeds the
same quantity for the current best. -/
def spec_prefer (minScore : Value) (vt : Move → Int) (best t : Thread) : Prop :=
  if abs (firstScore best) ≥ VALUE_TB_WIN_IN_MAX_PLY then
    firstScore t > firstScore best
  else
    firstScore t ≥ VALUE_TB_WIN_IN_MAX_PLY
    ∨ (firstScore t > VALUE_TB_LOSS_IN_MAX_PLY
       ∧ (vt (firstMove t) > vt (firstMove best)
          ∨ (vt (firstMove t) = vt (firstMove best)
             ∧ thread_value minScore t * pvLongIndicator t >
               thread_value minScore best * pvLongIndicator best)))

/-- The spec's replacement test and the code's are the same test. -/
theorem spec_prefer_iff_betterThread (minScore : Value) (vt : Move → Int)
    (best t : Thread) :
    spec_prefer minScore vt best t ↔ betterThread minScore vt best t = true := by
  unfold spec_prefer betterThread
  split <;> simp

instance (minScore : Value) (vt : Move → Int) (best t : Thread) :
    Decidable (spec_prefer minScore vt best t) :=
  decidable_of_iff _ (spec_prefer_iff_betterThread minScore vt best t).symm

/-- The five-step selection exactly as the spec states it: spec minimum,
spec vote totals, scan from the main thread over the pool in order with the
spec's replacement test. -/
def spec_get_best_thread (ts : List Thread) : Thread :=
  let minScore := spec_minScore ts
  let vt := spec_votes minScore ts
  ts.foldl (fun best t => if spec_prefer minScore vt best t then t else best)
    (ts.headD dummyThread)

/-!
Concrete snapshots used by the scenario theorems.
-/

/-- A worker snapshot with one root move carrying a single-move PV: score s,
completed depth d, first move m, as in the spec's three-worker scenario
(which fixes only score, depth and first move). -/
def mkSnap (i : Nat) (s : Value) (d : Nat) (m : Move) : Thread :=
  { dummyThread with idx := i, completedDepth := d,
                     rootMoves := [{ score := s, pv := [m] }] }

/-- The move called e4 in the spec's scenario. -/
def mvE4 : Move := 1

/-- The move called d4 in the spec's scenario. -/
def mvD4 : Move := 2

/-- The spec's three-worker snapshot: (score, depth, firstMove) =
(100,10,e4), (90,12,e4), (50,8,d4). -/
def scenarioPool : List Thread :=
  [mkSnap 0 100 10 mvE4, mkSnap 1 90 12 mvE4, mkSnap 2 50 8 mvD4]

/-!
Helper lemmas shared by the claim theorems.
-/

/-- Unrolling the vote-accumulation fold of get_best_thread from any
accumulator: the result at a move is the accumulator's entry plus the
spec-style sum over the workers voting for that move. -/
theorem votesFold_acc (v : Value) (ts : List Thread) (acc : Move → Int) (m : Move) :
    List.foldl
      (fun vt t => fun m2 =>
        if m2 = firstMove t then vt m2 + thread_value v t else vt m2)
      acc ts m
      = acc m + spec_votes v ts m := by
  induction ts generalizing acc with
  | nil => simp [spec_votes]
  | cons t rest ih =>
      rw [List.foldl_cons, ih]
      unfold spec_votes
      by_cases hm : m = firstMove t
      · simp [List.filter_cons, hm.symm, add_assoc]
      · have hm2 : ¬ (firstMove t = m) := fun hc => hm hc.symm
        simp [List.filter_cons, hm, hm2]

/-- The code's vote table coincides with the spec's vote totals. -/
theorem votesFold_eq_spec_votes (v : Value) (ts : List Thread) :
    votesFold v ts = spec_votes v ts := by
  funext m
  unfold votesFold
  rw [votesFold_acc]
  simp

/-- A thread's clear does not change its identity fields. -/
theorem Thread.clear_isMain (t : Thread) : (Thread.clear t).isMain = t.isMain := rfl

/-- ThreadPool::clear changes no thread's isMain and keeps the pool's shape. -/
theorem clear_map_isMain (q : ThreadPool) :
    (ThreadPool.clear q).threads.map Thread.isMain = q.threads.map Thread.isMain := by
  cases hq : q.threads with
  | nil => simp [ThreadPool.clear, hq]
  | cons a as =>
      simp [ThreadPool.clear, hq, List.map_map]
      exact ⟨rfl, fun _ _ => rfl⟩

/-- ThreadPool::clear keeps the pool's size. -/
theorem clear_length (q : ThreadPool) :
    (ThreadPool.clear q).threads.length = q.threads.length := by
  cases hq : q.threads with
  | nil => simp [ThreadPool.clear, hq]
  | cons a as => simp [ThreadPool.clear, hq]

/-- A list of threads whose isMain image is a false-replicate has no main
thread to filter out. -/
theorem filter_isMain_nil (l : List Thread) (k : Nat)
    (hl : l.map Thread.isMain = List.replicate k false) :
    l.filter Thread.isMain = [] := by
  induction l generalizing k with
  | nil => rfl
  | cons a as ih =>
      cases k with
      | zero => simp at hl
      | succ k2 =>
          rw [List.replicate_succ] at hl
          simp only [List.map_cons, List.cons.injEq] at hl
          simp [List.filter_cons, hl.1, ih k2 hl.2]

/-- The isMain image of a pool of n freshly constructed threads: true at
slot 0, false everywhere else. -/
def mainPattern (n : Nat) : List Bool :=
  (List.range n).map (fun i => decide (i = 0))

/-- The pool invariant "exactly one MainThread, always slot 0" (vacuous on
an empty pool): the isMain image of the thread list is true at slot 0 and
false at every later slot. -/
def mainSlotInvariant (p : ThreadPool) : Prop :=
  p.threads.map Thread.isMain = mainPattern p.threads.length

/-- The main pattern of a non-empty pool is true followed by falses. -/
theorem mainPattern_succ (n : Nat) :
    mainPattern (n + 1) = true :: List.replicate n false := by
  unfold mainPattern
  rw [List.range_succ_eq_map]
  simp [List.map_map, Function.comp_def, List.map_eq_replicate_iff]

/-- The threads ThreadPool::set builds carry the main pattern: the
MainThread at slot 0, plain threads after it. -/
theorem mkThreads_map_isMain (n : Nat) :
    (mkThreads n).map Thread.isMain = mainPattern n := by
  unfold mkThreads mainPattern
  simp [List.map_map, Function.comp_def, Thread.mkIdle, Thread.idlePark, Thread.mkRaw]

/-- mkThreads builds exactly the requested number of threads. -/
theorem mkThreads_length (n : Nat) : (mkThreads n).length = n := by
  simp [mkThreads]

/-- The pre-root-move main-thread writes of start_thinking keep the isMain
image of the pool. -/
theorem setMainFields_map_isMain (pm : Bool) (l : List Thread) :
    (setMainFields pm l).map Thread.isMain = l.map Thread.isMain := by
  cases l <;> rfl

/-- Waking the main thread keeps the isMain image of the pool. -/
theorem wakeMain_map_isMain (l : List Thread) :
    (wakeMain l).map Thread.isMain = l.map Thread.isMain := by
  cases l <;> rfl

/-- The per-worker replication of start_thinking keeps the isMain image. -/
theorem resetForSearch_map_isMain (ranked : List RootMove) (posFen back : Nat)
    (l : List Thread) :
    (l.map (Thread.resetForSearch ranked posFen back)).map Thread.isMain
      = l.map Thread.isMain := by
  simp [List.map_map, Function.comp_def, Thread.resetForSearch]

/-- ThreadPool::start_searching (waking the non-main workers) keeps the
isMain image of the pool. -/
theorem pool_start_searching_map_isMain (p : ThreadPool) :
    p.start_searching.threads.map Thread.isMain = p.threads.map Thread.isMain := by
  cases hp : p.threads with
  | nil => simp [ThreadPool.start_searching, hp]
  | cons a as =>
      simp [ThreadPool.start_searching, hp, List.map_map, Function.comp_def,
            Thread.start_searching]

/-!
The claim theorems.
-/

/-- C3. Process-wide one-time initialization: however many sessions (at
least one) start concurrently in a fresh process, the mutex serializes
their startup critical sections, and Bitboards::init runs exactly once -
the instrumented counter ends at 1 and the guarding flag ends set. -/
theorem bitboards_init_exactly_once (n : Nat) (h : 1 ≤ n) :
    (runConcurrentSessions n).initCount = 1
    ∧ (runConcurrentSessions n).bitboards_initialized = true := by
  obtain ⟨k, rfl⟩ := Nat.exists_eq_add_of_le h
  unfold runConcurrentSessions
  rw [Nat.add_comm, Function.iterate_add_apply]
  have h1 : sessionInitSection^[1] { bitboards_initialized := false, initCount := 0 }
      = { bitboards_initialized := true, initCount := 1 } := rfl
  rw [h1, Function.iterate_fixed rfl]
  exact ⟨rfl, rfl⟩

/-- C3 witness: the supervisor's own configuration, 10 concurrent sessions,
initializes the Bitboards tables exactly once. -/
theorem bitboards_init_exactly_once_witness :
    (runConcurrentSessions 10).initCount = 1
    ∧ (runConcurrentSessions 10).bitboards_initialized = true :=
  bitboards_init_exactly_once 10 (by decide)

/-- C4 counterexample. When the first pipe(2) call succeeds and the second
fails, pipe_wrapper returns the non-zero status but closes neither of the
two descriptors the first call opened: descriptor 3 is opened, not closed. -/
theorem pipe_wrapper_leak_counterexample :
    (pipe_wrapper { pipeInOk := true, pipeOutOk := false, fileInOpenOk := true,
                    fileOutOpenOk := true, threadCreateOk := true }).status ≠ 0
    ∧ 3 ∈ (pipe_wrapper { pipeInOk := true, pipeOutOk := false, fileInOpenOk := true,
                          fileOutOpenOk := true, threadCreateOk := true }).openedFds
    ∧ 3 ∉ (pipe_wrapper { pipeInOk := true, pipeOutOk := false, fileInOpenOk := true,
                          fileOutOpenOk := true, threadCreateOk := true }).closedFds := by
  decide

/-- C4 as amended. pipe_wrapper returns 0 exactly when the two pipe
creations, the two stream attachments and the thread creation all succeed,
and 1 on every failure path; but descriptors opened before a failure are
not closed before returning - on the second-pipe failure both descriptors
of the first pipe stay open. -/
theorem pipe_wrapper_status_amended :
    (∀ env : PipeEnv,
       ((pipe_wrapper env).status = 0
          ↔ (env.pipeInOk && env.pipeOutOk && env.fileInOpenOk
              && env.fileOutOpenOk && env.threadCreateOk) = true)
       ∧ ((pipe_wrapper env).status = 0 ∨ (pipe_wrapper env).status = 1))
    ∧ (pipe_wrapper { pipeInOk := true, pipeOutOk := false, fileInOpenOk := true,
                      fileOutOpenOk := true, threadCreateOk := true }).openedFds = [3, 4]
    ∧ (pipe_wrapper { pipeInOk := true, pipeOutOk := false, fileInOpenOk := true,
                      fileOutOpenOk := true, threadCreateOk := true }).closedFds = [] := by
  refine ⟨?_, by decide, by decide⟩
  intro env
  obtain ⟨a, b, c, d, e⟩ := env
  cases a <;> cases b <;> cases c <;> cases d <;> cases e <;> exact ⟨by decide, by decide⟩

/-- C5. The destructor protocol of Thread::~Thread on a parked thread (the
asserted precondition: not searching; exit still clear on a live thread):
it requests termination through the dedicated exit flag - a lifecycle value
a plain search request never sets - wakes the parked thread, and the woken
idle loop maps the termination request and a plain search request to the
two distinct outcomes, returning (so the join completes) on exit and
searching otherwise. -/
theorem thread_destructor_exit_protocol (t : Thread)
    (hassert : t.searching = false) (hexit : t.exit = false) :
    (t.destructorSignal).searching = true
    ∧ (t.destructorSignal).exit = true
    ∧ (t.destructorSignal).idleWakeAction = IdleAction.terminate
    ∧ (t.start_searching).idleWakeAction = IdleAction.runSearch
    ∧ (t.destructorSignal).exit ≠ (t.start_searching).exit
    ∧ (t.destructorSignal).idleWakeAction ≠ (t.start_searching).idleWakeAction := by
  unfold Thread.destructorSignal Thread.start_searching Thread.idleWakeAction
  simp [hexit]

/-- C5 witness: the protocol run on a freshly parked thread. -/
theorem thread_destructor_exit_protocol_witness :
    ((Thread.mkIdle 0 false).destructorSignal).searching = true
    ∧ ((Thread.mkIdle 0 false).destructorSignal).exit = true
    ∧ ((Thread.mkIdle 0 false).destructorSignal).idleWakeAction = IdleAction.terminate
    ∧ ((Thread.mkIdle 0 false).start_searching).idleWakeAction = IdleAction.runSearch
    ∧ ((Thread.mkIdle 0 false).destructorSignal).exit
        ≠ ((Thread.mkIdle 0 false).start_searching).exit
    ∧ ((Thread.mkIdle 0 false).destructorSignal).idleWakeAction
        ≠ ((Thread.mkIdle 0 false).start_searching).idleWakeAction :=
  thread_destructor_exit_protocol (Thread.mkIdle 0 false) rfl rfl

/-- C9. The constructor handshake: a freshly initialized thread reports
searching, so the constructor's wait_for_search_finished blocks until the
spawned body's first parking step clears the flag; the constructor hands
back the parked state, on which any further wait_for_search_finished
returns at once, whatever the thread would do next. -/
theorem thread_constructor_idle_handshake (idx : Nat) (isMain : Bool) :
    (Thread.mkRaw idx isMain).searching = true
    ∧ Thread.construct idx isMain = some (Thread.mkIdle idx isMain)
    ∧ (Thread.mkIdle idx isMain).searching = false
    ∧ (∀ (fuel : Nat) (step : Thread → Thread),
         Thread.waitForSearchFinished fuel step (Thread.mkIdle idx isMain)
           = some (Thread.mkIdle idx isMain)) := by
  refine ⟨rfl, rfl, rfl, ?_⟩
  intro fuel step
  cases fuel <;> simp [Thread.waitForSearchFinished, Thread.mkIdle, Thread.idlePark]

/-- C2 counterexample. On the spec's three-worker snapshot the code's
quantities are not the spec's: minScore is indeed 50, but
value(worker 1) = (90 - 50 + 14) * 12 = 648 (the spec says 616) and
value(worker 2) = (50 - 50 + 14) * 8 = 112 (the spec says 120), so
votes[e4] = 640 + 648 = 1288 (not 1256) and votes[d4] = 112 (not 120). -/
theorem scenario_values_counterexample :
    minScoreFold scenarioPool = 50
    ∧ thread_value 50 (mkSnap 1 90 12 mvE4) = 648
    ∧ thread_value 50 (mkSnap 2 50 8 mvD4) = 112
    ∧ ¬ (thread_value 50 (mkSnap 1 90 12 mvE4) = 616
         ∧ thread_value 50 (mkSnap 2 50 8 mvD4) = 120
         ∧ votesFold 50 scenarioPool mvE4 = 1256
         ∧ votesFold 50 scenarioPool mvD4 = 120) := by
  decide

/-- C2 as amended. On the three-worker snapshot (with the PVs the scenario
fixes: a single move each): minScore = 50, the per-thread values are
(640, 648, 112), the vote totals are votes[e4] = 1288 and votes[d4] = 112,
and get_best_thread returns the first worker (slot 0) - kept as the
incumbent because the e4-voters' vote totals tie and the PV-longer-than-two
indicator zeroes both tie-break products; it is not the e4-voter with the
higher value (worker 1's 648 exceeds worker 0's 640). -/
theorem scenario_selection_amended :
    minScoreFold scenarioPool = 50
    ∧ thread_value 50 (mkSnap 0 100 10 mvE4) = 640
    ∧ thread_value 50 (mkSnap 1 90 12 mvE4) = 648
    ∧ thread_value 50 (mkSnap 2 50 8 mvD4) = 112
    ∧ votesFold 50 scenarioPool mvE4 = 1288
    ∧ votesFold 50 scenarioPool mvD4 = 112
    ∧ (get_best_thread scenarioPool).idx = 0 := by
  decide

/-- C1. On every snapshot in the claim's domain - a non-empty pool, every
worker holding at least one root move with a non-empty PV, scores in the
engine's valid range (at most VALUE_INFINITE, which keeps the code's
VALUE_NONE seed of the minimum fold inert) - ThreadPool::get_best_thread
computes exactly the spec's five-step selection: the spec's minimum score,
the spec's vote totals, and the spec's scan from the main thread with the
spec's replacement test. -/
theorem get_best_thread_follows_spec (ts : List Thread) (hne : ts ≠ [])
    (hpv : ∀ t ∈ ts, t.rootMoves ≠ [] ∧ firstPvLen t ≠ 0)
    (hbound : ∀ t ∈ ts, firstScore t ≤ VALUE_INFINITE) :
    get_best_thread ts = spec_get_best_thread ts := by
  obtain ⟨a, as, rfl⟩ := List.exists_cons_of_ne_nil hne
  have hmin : minScoreFold (a :: as) = spec_minScore (a :: as) := by
    have ha : firstScore a ≤ VALUE_INFINITE := hbound a (List.mem_cons_self a as)
    have hseed : min VALUE_NONE (firstScore a) = firstScore a := by
      apply min_eq_right
      exact le_trans ha (by unfold VALUE_INFINITE VALUE_NONE; norm_num)
    simp only [minScoreFold, spec_minScore, List.foldl_cons, hseed]
  have hvt : votesFold (spec_minScore (a :: as)) (a :: as)
      = spec_votes (spec_minScore (a :: as)) (a :: as) :=
    votesFold_eq_spec_votes _ _
  simp only [get_best_thread, spec_get_best_thread, hmin, hvt]
  apply List.foldl_ext
  intro best t _
  by_cases hp : spec_prefer (spec_minScore (a :: as))
      (spec_votes (spec_minScore (a :: as)) (a :: as)) best t
  · rw [if_pos ((spec_prefer_iff_betterThread _ _ _ _).mp hp), if_pos hp]
  · rw [if_neg (fun hb => hp ((spec_prefer_iff_betterThread _ _ _ _).mpr hb)),
        if_neg hp]

/-- C1 witness: the five-step equivalence instantiated on the concrete
three-worker snapshot. -/
theorem get_best_thread_follows_spec_witness :
    get_best_thread scenarioPool = spec_get_best_thread scenarioPool :=
  get_best_thread_follows_spec scenarioPool (by simp [scenarioPool])
    (by decide) (by decide)

/-- setMainFields keeps the pool's size. -/
theorem setMainFields_length (pm : Bool) (l : List Thread) :
    (setMainFields pm l).length = l.length := by
  cases l <;> rfl

/-- wakeMain keeps the pool's size. -/
theorem wakeMain_length (l : List Thread) :
    (wakeMain l).length = l.length := by
  cases l <;> rfl

/-- ThreadPool::start_searching keeps the pool's size. -/
theorem pool_start_searching_length (p : ThreadPool) :
    p.start_searching.threads.length = p.threads.length := by
  cases hp : p.threads <;> simp [ThreadPool.start_searching, hp]

/-- A thread list whose isMain image is true followed by falses filters to
exactly one main thread. -/
theorem filter_isMain_one (l : List Thread) (k : Nat)
    (hl : l.map Thread.isMain = true :: List.replicate k false) :
    (l.filter Thread.isMain).length = 1 := by
  cases l with
  | nil => simp at hl
  | cons a as =>
      simp only [List.map_cons, List.cons.injEq] at hl
      simp [List.filter_cons, hl.1, filter_isMain_nil as k hl.2]

/-- On a positive request, ThreadPool::set is the pool-wide clear of the
freshly built thread list, followed by the two collaborator calls. -/
theorem set_pos_eq (p : ThreadPool) (n : Nat) (h : 0 < n) :
    p.set n = (ThreadPool.clear { p with threads := mkThreads n },
               [PoolEvent.clearTables, PoolEvent.ttResize, PoolEvent.searchInit]) := by
  unfold ThreadPool.set
  simp [h]

/-- Every thread of a cleared pool carries the baseline tables. -/
theorem clear_tables_baseline (q : ThreadPool) :
    ∀ t ∈ (ThreadPool.clear q).threads,
      t.counterMoves = (fun _ => MOVE_NONE)
      ∧ t.mainHistory = (fun _ => (0 : Int))
      ∧ t.captureHistory = (fun _ => (0 : Int))
      ∧ t.continuationHistory = (fun _ => (-71 : Int)) := by
  intro t ht
  cases hq : q.threads with
  | nil => simp [ThreadPool.clear, hq] at ht
  | cons a as =>
      simp only [ThreadPool.clear, hq, List.map_cons] at ht
      rcases List.mem_cons.mp ht with h1 | h2
      · subst h1
        exact ⟨rfl, rfl, rfl, rfl⟩
      · obtain ⟨x, _, rfl⟩ := List.mem_map.mp h2
        exact ⟨rfl, rfl, rfl, rfl⟩

/-- The front thread of a cleared non-empty pool carries the reset
iteration-tracking fields of ThreadPool::clear. -/
theorem clear_main_fields (q : ThreadPool) (hq : q.threads ≠ []) :
    ((ThreadPool.clear q).threads.headD dummyThread).callsCnt = 0
    ∧ ((ThreadPool.clear q).threads.headD dummyThread).bestPreviousScore = VALUE_INFINITE
    ∧ ((ThreadPool.clear q).threads.headD dummyThread).bestPreviousAverageScore
        = VALUE_INFINITE
    ∧ ((ThreadPool.clear q).threads.headD dummyThread).previousTimeReduction = 1 := by
  obtain ⟨a, as, hp⟩ := List.exists_cons_of_ne_nil hq
  simp [ThreadPool.clear, hp]

/-- C7. ThreadPool::set(n) leaves exactly n workers; the isMain image of
the pool is true at slot 0 and false elsewhere (so exactly one MainThread
when n is positive, none when n = 0); and that shape is preserved by every
pool operation that touches the thread list: clear, start_thinking, and the
pool-wide start_searching. -/
theorem pool_set_size_and_unique_main :
    (∀ (p : ThreadPool) (n : Nat),
       (p.set n).1.threads.length = n
       ∧ mainSlotInvariant (p.set n).1
       ∧ ((p.set n).1.threads.filter Thread.isMain).length = if n = 0 then 0 else 1)
    ∧ (∀ q : ThreadPool, mainSlotInvariant q → mainSlotInvariant q.clear)
    ∧ (∀ (q : ThreadPool) (posFen : Nat) (legalMoves : List Move)
         (rank : List RootMove → List RootMove) (states : Option (List Nat))
         (limits : LimitsType) (ponderMode : Bool),
         mainSlotInvariant q →
           mainSlotInvariant
             (q.start_thinking posFen legalMoves rank states limits ponderMode).1)
    ∧ (∀ q : ThreadPool, mainSlotInvariant q → mainSlotInvariant q.start_searching) := by
  refine ⟨?_, ?_, ?_, ?_⟩
  · intro p n
    cases n with
    | zero =>
        refine ⟨?_, ?_, ?_⟩ <;> simp [ThreadPool.set, mainSlotInvariant, mainPattern]
    | succ k =>
        have hpos : 0 < k + 1 := Nat.succ_pos k
        rw [set_pos_eq p (k + 1) hpos]
        have hlen : (ThreadPool.clear { p with threads := mkThreads (k + 1) }).threads.length
            = k + 1 := by
          rw [clear_length]
          exact mkThreads_length (k + 1)
        have hmap : (ThreadPool.clear { p with threads := mkThreads (k + 1) }).threads.map
            Thread.isMain = mainPattern (k + 1) := by
          rw [clear_map_isMain]
          exact mkThreads_map_isMain (k + 1)
        refine ⟨hlen, ?_, ?_⟩
        · unfold mainSlotInvariant
          rw [hmap, hlen]
        · rw [if_neg (Nat.succ_ne_zero k)]
          exact filter_isMain_one _ k (by rw [hmap, mainPattern_succ])
  · intro q hq
    unfold mainSlotInvariant at hq ⊢
    rw [clear_map_isMain, clear_length, hq]
  · intro q posFen legalMoves rank states limits ponderMode hq
    unfold mainSlotInvariant at hq ⊢
    simp only [ThreadPool.start_thinking]
    rw [wakeMain_map_isMain, resetForSearch_map_isMain, setMainFields_map_isMain,
        wakeMain_length, List.length_map, setMainFields_length, hq]
  · intro q hq
    unfold mainSlotInvariant at hq ⊢
    rw [pool_start_searching_map_isMain, pool_start_searching_length, hq]

/-- A pool with no threads and fresh session configuration: the state a
ThreadPool is constructed in before its first set(). -/
def basePool : ThreadPool :=
  { threads := [], stop := false, increaseDepth := false, setupStates := none,
    limits := { searchmoves := [] } }

/-- A two-worker idle pool: the MainThread at slot 0 and one plain worker. -/
def witnessPool : ThreadPool :=
  { basePool with threads := [Thread.mkIdle 0 true, Thread.mkIdle 1 false] }

/-- A one-worker idle pool. -/
def c8pool : ThreadPool :=
  { basePool with threads := [Thread.mkIdle 0 true] }

/-- C6. start_thinking on a non-empty pool with a non-empty position-history
handle: the handle is moved into the pool (the pool retains it and the
caller's handle comes back empty); every worker's counters - nodes, tbHits,
bestMoveChanges and both depths - are reset to zero; and only the main
thread is woken: the front thread's searching flag is set while every other
worker's searching flag is exactly what it was before the call. The call
itself performs no search: it returns with the main thread merely signalled. -/
theorem start_thinking_transfer_reset_wake (p : ThreadPool) (posFen : Nat)
    (legalMoves : List Move) (rank : List RootMove → List RootMove)
    (sl : List Nat) (limits : LimitsType) (ponderMode : Bool)
    (hne : p.threads ≠ []) :
    (p.start_thinking posFen legalMoves rank (some sl) limits ponderMode).2.1 = none
    ∧ (p.start_thinking posFen legalMoves rank (some sl) limits ponderMode).1.setupStates
        = some sl
    ∧ (∀ t ∈ (p.start_thinking posFen legalMoves rank (some sl) limits ponderMode).1.threads,
         t.nodes = 0 ∧ t.tbHits = 0 ∧ t.bestMoveChanges = 0
           ∧ t.rootDepth = 0 ∧ t.completedDepth = 0)
    ∧ ((p.start_thinking posFen legalMoves rank (some sl) limits ponderMode).1.threads.map
         Thread.searching).headD false = true
    ∧ ((p.start_thinking posFen legalMoves rank (some sl) limits ponderMode).1.threads.map
         Thread.searching).tail = (p.threads.map Thread.searching).tail := by
  obtain ⟨a, as, hp⟩ := List.exists_cons_of_ne_nil hne
  refine ⟨rfl, by simp [ThreadPool.start_thinking], ?_, ?_, ?_⟩
  · intro t ht
    simp only [ThreadPool.start_thinking, hp, setMainFields, wakeMain,
               List.map_cons] at ht
    rcases List.mem_cons.mp ht with h1 | h2
    · subst h1
      exact ⟨rfl, rfl, rfl, rfl, rfl⟩
    · obtain ⟨x, _, rfl⟩ := List.mem_map.mp h2
      exact ⟨rfl, rfl, rfl, rfl, rfl⟩
  · simp [ThreadPool.start_thinking, hp, setMainFields, wakeMain,
          Thread.start_searching]
  · simp [ThreadPool.start_thinking, hp, setMainFields, wakeMain, List.map_map,
          Function.comp_def, Thread.resetForSearch, Thread.start_searching]

/-- C6 witness: the transfer, reset and single wakeup on a concrete
two-worker pool. -/
theorem start_thinking_transfer_reset_wake_witness :
    (witnessPool.start_thinking 7 [5] id (some [3]) { searchmoves := [] } false).2.1 = none
    ∧ (witnessPool.start_thinking 7 [5] id (some [3]) { searchmoves := [] } false).1.setupStates
        = some [3]
    ∧ (∀ t ∈ (witnessPool.start_thinking 7 [5] id (some [3])
                { searchmoves := [] } false).1.threads,
         t.nodes = 0 ∧ t.tbHits = 0 ∧ t.bestMoveChanges = 0
           ∧ t.rootDepth = 0 ∧ t.completedDepth = 0)
    ∧ ((witnessPool.start_thinking 7 [5] id (some [3])
          { searchmoves := [] } false).1.threads.map Thread.searching).headD false = true
    ∧ ((witnessPool.start_thinking 7 [5] id (some [3])
          { searchmoves := [] } false).1.threads.map Thread.searching).tail
        = (witnessPool.threads.map Thread.searching).tail :=
  start_thinking_transfer_reset_wake witnessPool 7 [5] id [3] { searchmoves := [] } false
    (by simp [witnessPool, basePool])

/-- C8 counterexample. A start_thinking call whose root-move list comes out
empty (here: no legal moves at all) never invokes the endgame-table
rank/filter operation - zero calls, not the one call the claim requires of
every start_thinking. -/
theorem rank_root_moves_skipped_counterexample :
    (c8pool.start_thinking 0 [] id (some [0]) { searchmoves := [] } false).2.2 = 0
    ∧ (0 : Nat) ≠ 1 :=
  ⟨rfl, by decide⟩

/-- C8 as amended. During one start_thinking call the endgame-table
rank/filter operation runs on the just-built root move list (legal moves
filtered by the optional allow-list) exactly once when that list is
non-empty, and not at all when it is empty; never more than once. -/
theorem start_thinking_ranks_once_iff (p : ThreadPool) (posFen : Nat)
    (legalMoves : List Move) (rank : List RootMove → List RootMove)
    (states : Option (List Nat)) (limits : LimitsType) (ponderMode : Bool) :
    ((p.start_thinking posFen legalMoves rank states limits ponderMode).2.2 = 1
       ↔ legalMoves.filter
           (fun m => decide (limits.searchmoves = []) || limits.searchmoves.contains m)
           ≠ [])
    ∧ (p.start_thinking posFen legalMoves rank states limits ponderMode).2.2 ≤ 1 := by
  have hkey : (p.start_thinking posFen legalMoves rank states limits ponderMode).2.2
      = if legalMoves.filter
            (fun m => decide (limits.searchmoves = []) || limits.searchmoves.contains m)
            = []
        then 0 else 1 := by
    by_cases hf : legalMoves.filter
        (fun m => decide (limits.searchmoves = []) || limits.searchmoves.contains m) = []
    · rw [if_pos hf]
      simp only [ThreadPool.start_thinking, hf]
      rfl
    · rw [if_neg hf]
      cases hfl : legalMoves.filter
          (fun m => decide (limits.searchmoves = []) || limits.searchmoves.contains m) with
      | nil => exact absurd hfl hf
      | cons b bs =>
          simp only [ThreadPool.start_thinking, hfl]
          rfl
  rw [hkey]
  refine ⟨?_, by split <;> norm_num⟩
  by_cases hc : legalMoves.filter
      (fun m => decide (limits.searchmoves = []) || limits.searchmoves.contains m) = []
  · simp [hc]
  · simp [hc]

/-- C10. ThreadPool::set with a positive request performs the full new-game
reset before handing off to the collaborators: the recorded event order is
clear, then transposition-table resize, then search-parameter setup; after
the call every worker's counter-move, history, capture and continuation
tables sit at their fixed baselines (MOVE_NONE, 0, 0, -71) and the main
thread's callsCnt is 0, bestPreviousScore and bestPreviousAverageScore are
VALUE_INFINITE, and previousTimeReduction is 1. -/
theorem set_performs_new_game_reset (p : ThreadPool) (n : Nat) (h : 0 < n) :
    (p.set n).2 = [PoolEvent.clearTables, PoolEvent.ttResize, PoolEvent.searchInit]
    ∧ (∀ t ∈ (p.set n).1.threads,
         t.counterMoves = (fun _ => MOVE_NONE)
         ∧ t.mainHistory = (fun _ => (0 : Int))
         ∧ t.captureHistory = (fun _ => (0 : Int))
         ∧ t.continuationHistory = (fun _ => (-71 : Int)))
    ∧ (((p.set n).1.threads.headD dummyThread).callsCnt = 0
       ∧ ((p.set n).1.threads.headD dummyThread).bestPreviousScore = VALUE_INFINITE
       ∧ ((p.set n).1.threads.headD dummyThread).bestPreviousAverageScore = VALUE_INFINITE
       ∧ ((p.set n).1.threads.headD dummyThread).previousTimeReduction = 1) := by
  rw [set_pos_eq p n h]
  have hne : ({ p with threads := mkThreads n } : ThreadPool).threads ≠ [] := by
    intro hc
    have hlen := mkThreads_length n
    rw [show ({ p with threads := mkThreads n } : ThreadPool).threads = mkThreads n from rfl]
      at hc
    rw [hc] at hlen
    simp at hlen
    omega
  exact ⟨rfl, clear_tables_baseline _, clear_main_fields _ hne⟩

/-- C10 witness: the new-game reset observed on a two-worker set(). -/
theorem set_performs_new_game_reset_witness :
    (basePool.set 2).2 = [PoolEvent.clearTables, PoolEvent.ttResize, PoolEvent.searchInit]
    ∧ (∀ t ∈ (basePool.set 2).1.threads,
         t.counterMoves = (fun _ => MOVE_NONE)
         ∧ t.mainHistory = (fun _ => (0 : Int))
         ∧ t.captureHistory = (fun _ => (0 : Int))
         ∧ t.continuationHistory = (fun _ => (-71 : Int)))
    ∧ (((basePool.set 2).1.threads.headD dummyThread).callsCnt = 0
       ∧ ((basePool.set 2).1.threads.headD dummyThread).bestPreviousScore = VALUE_INFINITE
       ∧ ((basePool.set 2).1.threads.headD dummyThread).bestPreviousAverageScore
           = VALUE_INFINITE
       ∧ ((basePool.set 2).1.threads.headD dummyThread).previousTimeReduction = 1) :=
  set_performs_new_game_reset basePool 2 (by decide)
